import Mathlib

/-!
Verification of the exorous_code agent execution engine.

This file shallowly embeds the parts of the repository that the checked
properties are about:

* `src/safety/approval.py` — dangerous/safe command classification
  (the `DANGEROUS_PATTERNS` / `SAFE_PATTERNS` regular expressions are encoded
  as a small regex AST with a Brzozowski-derivative matcher emulating Python's
  `re.search` with `re.IGNORECASE`), `ApprovalManager._assess_command_safety`
  and `ApprovalManager.check_approval`;
* `src/context/loop_detector.py` — `LoopDetector.check_for_loop`;
* `src/src/exorous/context/manager.py` — `MessageItem.to_dict`,
  `ContextManager.needs_compression`, `replace_with_summary` and
  `prune_tool_outputs`;
* `src/src/exorous/tools/registry.py` — `ToolRegistry.invoke`, tracking the
  `before_tool` / `after_tool` lifecycle notifications it fires;
* `src/agent/agent.py` — the event behaviour of `Agent._agentic_loop`,
  driven by a per-turn transport event schedule.

Machine integers are modelled as `Nat` (token counts never go negative in the
source), the fraction `0.8` in `needs_compression` is modelled exactly as
`4/5` (the comparison `current > limit * 0.8` becomes
`5 * current > 4 * limit`), Python `datetime.now()` timestamps are opaque
naturals, filesystem paths are component lists with `Path.is_relative_to` as
the lexical component-prefix test, and the externally supplied token
estimator `count_tokens` is an arbitrary function parameter.
-/

set_option maxRecDepth 4000

/-! ## A tiny regex engine for the approval patterns

`src/safety/approval.py` classifies shell commands with `re.search(pattern,
command, re.IGNORECASE)`.  The patterns use only literals, character classes,
`.`, `\s`, `+`, `*`, `?`, alternation, and the anchors `^` (only at the start
of the safe patterns) and `$` (only inside a trailing `(\s|$)` group).  We
embed them as an AST and match with Brzozowski derivatives; `$` is a
constructor that succeeds exactly at the end of the input. -/

inductive Pat where
  | emp : Pat
  | eps : Pat
  | lit : Char → Pat
  | cls : List Char → Pat
  | dot : Pat
  | eos : Pat
  | alt : Pat → Pat → Pat
  | cat : Pat → Pat → Pat
  | star : Pat → Pat
deriving DecidableEq, Repr

/-- Can the pattern match the empty string at a position that is not the end
of the input (so `$` fails)? -/
def nullable : Pat → Bool
  | .emp => false
  | .eps => true
  | .lit _ => false
  | .cls _ => false
  | .dot => false
  | .eos => false
  | .alt p q => nullable p || nullable q
  | .cat p q => nullable p && nullable q
  | .star _ => true

/-- Can the pattern match the empty string at the end of the input (so `$`
succeeds)? -/
def nullableEnd : Pat → Bool
  | .emp => false
  | .eps => true
  | .lit _ => false
  | .cls _ => false
  | .dot => false
  | .eos => true
  | .alt p q => nullableEnd p || nullableEnd q
  | .cat p q => nullableEnd p && nullableEnd q
  | .star _ => true

/-- Brzozowski derivative: the language of `derivP p c` is what `p` accepts
after consuming `c`.  `.dot` does not match a newline, like Python `.`
without `DOTALL`. -/
def derivP : Pat → Char → Pat
  | .emp, _ => .emp
  | .eps, _ => .emp
  | .lit d, c => if d = c then .eps else .emp
  | .cls cs, c => if cs.contains c then .eps else .emp
  | .dot, c => if c = '\n' then .emp else .eps
  | .eos, _ => .emp
  | .alt p q, c => .alt (derivP p c) (derivP q c)
  | .cat p q, c =>
      if nullable p then .alt (.cat (derivP p c) q) (derivP q c)
      else .cat (derivP p c) q
  | .star p, c => .cat (derivP p c) (.star p)

/-- Does `p` match some prefix of `s` (with `$` succeeding only at the very
end of `s`)?  This is `re.match` semantics at the current position. -/
def matchHere : Pat → List Char → Bool
  | p, [] => nullableEnd p
  | p, c :: rest => nullable p || matchHere (derivP p c) rest

/-- Does `p` match starting at some position of `s`?  This is `re.search`
semantics for an unanchored pattern. -/
def searchP : Pat → List Char → Bool
  | p, [] => matchHere p []
  | p, c :: rest => matchHere p (c :: rest) || searchP p rest

/-- Concatenation of the literal characters of `s`. -/
def strP (s : String) : Pat :=
  s.toList.foldr (fun c acc => Pat.cat (Pat.lit c) acc) Pat.eps

def catList (ps : List Pat) : Pat := ps.foldr Pat.cat Pat.eps

def altList (ps : List Pat) : Pat := ps.foldr Pat.alt Pat.emp

/-- Python `\s`: the whitespace class. -/
def wsP : Pat := Pat.cls [' ', '\t', '\n', '\r', '\x0c', '\x0b']

/-- `p+` -/
def plusP (p : Pat) : Pat := Pat.cat p (Pat.star p)

/-- `p?` -/
def optP (p : Pat) : Pat := Pat.alt p Pat.eps

/-- `(\s|$)` — the trailing group of the safe patterns. -/
def wsOrEnd : Pat := Pat.alt wsP Pat.eos

/-- `re.IGNORECASE` is modelled by lowercasing the input; the patterns below
are stored lowercase (note `-R` in the `chmod`/`chown` patterns is therefore
encoded as `-r`). -/
def lowerStr (s : String) : List Char := s.toList.map Char.toLower

/-- The `DANGEROUS_PATTERNS` list of `src/safety/approval.py`, in source
order. -/
def DANGEROUS_PATTERNS : List Pat :=
  [ -- rm\s+(-rf?|--recursive)\s+[/~]
    catList [strP "rm", plusP wsP,
      Pat.alt (catList [strP "-r", optP (Pat.lit 'f')]) (strP "--recursive"),
      plusP wsP, Pat.cls ['/', '~']],
    -- rm\s+-rf?\s+\*
    catList [strP "rm", plusP wsP, strP "-r", optP (Pat.lit 'f'),
      plusP wsP, Pat.lit '*'],
    -- rmdir\s+[/~]
    catList [strP "rmdir", plusP wsP, Pat.cls ['/', '~']],
    -- dd\s+if=
    catList [strP "dd", plusP wsP, strP "if="],
    strP "mkfs",
    strP "fdisk",
    strP "parted",
    strP "shutdown",
    strP "reboot",
    strP "halt",
    strP "poweroff",
    -- init\s+[06]
    catList [strP "init", plusP wsP, Pat.cls ['0', '6']],
    -- chmod\s+(-R\s+)?777\s+[/~]
    catList [strP "chmod", plusP wsP, optP (catList [strP "-r", plusP wsP]),
      strP "777", plusP wsP, Pat.cls ['/', '~']],
    -- chown\s+-R\s+.*\s+[/~]
    catList [strP "chown", plusP wsP, strP "-r", plusP wsP, Pat.star Pat.dot,
      plusP wsP, Pat.cls ['/', '~']],
    -- nc\s+-l
    catList [strP "nc", plusP wsP, strP "-l"],
    -- netcat\s+-l
    catList [strP "netcat", plusP wsP, strP "-l"],
    -- curl\s+.*\|\s*(bash|sh)
    catList [strP "curl", plusP wsP, Pat.star Pat.dot, Pat.lit '|',
      Pat.star wsP, Pat.alt (strP "bash") (strP "sh")],
    -- wget\s+.*\|\s*(bash|sh)
    catList [strP "wget", plusP wsP, Pat.star Pat.dot, Pat.lit '|',
      Pat.star wsP, Pat.alt (strP "bash") (strP "sh")],
    -- :\(\)\s*\{\s*:\|:&\s*\}\s*;  (fork bomb)
    catList [strP ":()", Pat.star wsP, Pat.lit '\x7b', Pat.star wsP,
      strP ":|:&", Pat.star wsP, Pat.lit '\x7d', Pat.star wsP, Pat.lit ';']]

/-- The `SAFE_PATTERNS` list of `src/safety/approval.py`, in source order.
Every safe pattern is anchored with `^` in the source; the anchor is realised
by matching these with `matchHere` (position 0 only) instead of `searchP`. -/
def SAFE_PATTERNS : List Pat :=
  [ catList [altList (["ls", "dir", "pwd", "cd", "echo", "cat", "head",
      "tail", "less", "more", "wc"].map strP), wsOrEnd],
    catList [altList (["find", "locate", "which", "whereis", "file",
      "stat"].map strP), wsOrEnd],
    catList [strP "git", plusP wsP, altList (["status", "log", "diff",
      "show", "branch", "remote", "tag"].map strP), wsOrEnd],
    catList [altList (["npm", "yarn", "pnpm"].map strP), plusP wsP,
      altList (["list", "ls", "outdated"].map strP), wsOrEnd],
    catList [strP "pip", plusP wsP,
      altList (["list", "show", "freeze"].map strP), wsOrEnd],
    catList [strP "cargo", plusP wsP,
      altList (["tree", "search"].map strP), wsOrEnd],
    catList [altList (["grep", "awk", "sed", "cut", "sort", "uniq", "tr",
      "diff", "comm"].map strP), wsOrEnd],
    catList [altList (["date", "cal", "uptime", "whoami", "id", "groups",
      "hostname", "uname"].map strP), wsOrEnd],
    catList [altList (["env", "printenv", "set"].map strP), Pat.eos],
    catList [altList (["ps", "top", "htop", "pgrep"].map strP), wsOrEnd]]

/-- `is_dangerous_command` of `src/safety/approval.py`: some dangerous
pattern matches anywhere in the command (case-insensitively). -/
def is_dangerous_command (command : String) : Bool :=
  DANGEROUS_PATTERNS.any (fun p => searchP p (lowerStr command))

/-- `is_safe_command` of `src/safety/approval.py`: some safe pattern matches
at the start of the command (all safe patterns are `^`-anchored). -/
def is_safe_command (command : String) : Bool :=
  SAFE_PATTERNS.any (fun p => matchHere p (lowerStr command))

/-! ## Approval engine (`src/safety/approval.py`) -/

/-- `ApprovalPolicy` of `src/src/exorous/config/config.py`. -/
inductive ApprovalPolicy where
  | ON_REQUEST
  | ON_FAILURE
  | AUTO
  | AUTO_EDIT
  | NEVER
  | YOLO
deriving DecidableEq, Repr

/-- `ApprovalDecision` of `src/safety/approval.py`. -/
inductive ApprovalDecision where
  | APPROVED
  | REJECTED
  | NEEDS_CONFIRMATION
deriving DecidableEq, Repr

/-- A filesystem path as its component list (`pathlib.Path.parts`). -/
def PyPath : Type := List String

instance : DecidableEq PyPath := inferInstanceAs (DecidableEq (List String))

/-- `Path.is_relative_to`: `base` is a lexical component-prefix of `p`. -/
def isSubPath : List String → List String → Bool
  | [], _ => true
  | _ :: _, [] => false
  | a :: as, b :: bs => a == b && isSubPath as bs

/-- Tool parameters: an opaque key/value map. -/
def Params : Type := List (String × String)

instance : DecidableEq Params := inferInstanceAs (DecidableEq (List (String × String)))

instance : Repr Params := inferInstanceAs (Repr (List (String × String)))

instance : Repr PyPath := inferInstanceAs (Repr (List String))

/-- `ToolConfirmation` of `src/tools/base.py` (the `diff` field is omitted:
no embedded code reads it). -/
structure ToolConfirmation where
  tool_name : String
  params : Params
  description : String
  affected_paths : List PyPath := []
  command : Option String := none
  is_dangerous : Bool := false

/-- `ApprovalContext` of `src/safety/approval.py`. -/
structure ApprovalContext where
  tool_name : String
  params : Params
  is_mutating : Bool
  affected_paths : List PyPath
  command : Option String := none
  is_dangerous : Bool := false

/-- `ApprovalManager` of `src/safety/approval.py`. -/
structure ApprovalManager where
  approval_policy : ApprovalPolicy
  cwd : PyPath
  confirmation_callback : Option (ToolConfirmation → Bool) := none

/-- `ApprovalManager._assess_command_safety`. -/
def assess_command_safety (policy : ApprovalPolicy) (command : String) :
    ApprovalDecision :=
  if policy = .YOLO then .APPROVED
  else if is_dangerous_command command then .REJECTED
  else if policy = .NEVER then
    (if is_safe_command command then .APPROVED else .REJECTED)
  else if policy = .AUTO ∨ policy = .ON_FAILURE then .APPROVED
  else if policy = .AUTO_EDIT then
    (if is_safe_command command then .APPROVED else .NEEDS_CONFIRMATION)
  else if is_safe_command command then .APPROVED
  else .NEEDS_CONFIRMATION

/-- Python truthiness of the `command` field: `if context.command:` is false
for both `None` and the empty string. -/
def commandText (c : Option String) : Option String :=
  match c with
  | some s => if s = "" then none else some s
  | none => none

/-- `ApprovalManager.check_approval`.  The source iterates
`context.affected_paths` and returns `NEEDS_CONFIRMATION` on the first path
not relative to `cwd`; `List.find?` returns that same first path. -/
def check_approval (m : ApprovalManager) (context : ApprovalContext) :
    ApprovalDecision :=
  if context.is_mutating = false then .APPROVED
  else
    let cmdStep : Option ApprovalDecision :=
      match commandText context.command with
      | some c =>
          let decision := assess_command_safety m.approval_policy c
          if decision ≠ .NEEDS_CONFIRMATION then some decision else none
      | none => none
    match cmdStep with
    | some d => d
    | none =>
      match context.affected_paths.find? (fun p => !(isSubPath m.cwd p)) with
      | some _ => .NEEDS_CONFIRMATION
      | none =>
        if context.is_dangerous then
          (if m.approval_policy = .YOLO then .APPROVED
           else .NEEDS_CONFIRMATION)
        else .APPROVED

/-- `ApprovalManager.request_confirmation`: absence of a callback
auto-approves. -/
def request_confirmation (m : ApprovalManager) (c : ToolConfirmation) : Bool :=
  match m.confirmation_callback with
  | some f => f c
  | none => true


/-! ## Repetition detector (`src/context/loop_detector.py`)

The detector's state is a bounded deque of signature strings; here `history`
is its contents, oldest first, newest last (matching Python list order after
`list(self._history)`).  `max_exact_repeats = 3` and `max_cycle_length = 3`
are the constructor constants. -/

def max_exact_repeats : Nat := 3

def max_cycle_length : Nat := 3

/-- Python `history[-n:]` (for `n ≥ 1`). -/
def lastN (n : Nat) (l : List String) : List String := l.drop (l.length - n)

/-- `LoopDetector.check_for_loop`.  `len(set(recent)) == 1` is the
distinct-count test, i.e. `recent.dedup.length = 1`; `recent[:cl] ==
recent[cl:]` is `take cl = drop cl`; the `for cycle_len in range(2, min(...))`
loop returning on the first hit is `List.find?` over `List.range'`. -/
def check_for_loop (history : List String) : Option String :=
  if history.length < 2 then none
  else if max_exact_repeats ≤ history.length
      ∧ (lastN max_exact_repeats history).dedup.length = 1 then
    some ("Same action repeated " ++ toString max_exact_repeats ++ " tiems")
  else if max_cycle_length * 2 ≤ history.length then
    match (List.range' 2
        (min (max_cycle_length + 1) (history.length / 2 + 1) - 2)).find?
        (fun cl =>
          decide ((lastN (cl * 2) history).take cl
            = (lastN (cl * 2) history).drop cl)) with
    | some cl => some ("Detected repeating cycle of length " ++ toString cl)
    | none => none
  else none


/-! ## Context store (`src/src/exorous/context/manager.py`) -/

/-- One entry of `MessageItem.tool_calls`: the dict
`{"id": ..., "type": "function", "function": {"name": ..., "arguments": ...}}`
built in `src/agent/agent.py` (the constant `"type"` key is left implicit). -/
structure ToolCallDict where
  id : String
  function_name : String
  function_arguments : String
deriving DecidableEq, Repr

/-- `MessageItem` of `src/src/exorous/context/manager.py`.  `pruned_at` is an
opaque timestamp. -/
structure MessageItem where
  role : String
  content : String
  tool_call_id : Option String := none
  tool_calls : List ToolCallDict := []
  token_count : Option Nat := none
  pruned_at : Option Nat := none
deriving DecidableEq, Repr

instance : Inhabited MessageItem := ⟨{ role := "", content := "" }⟩

/-- A value of the wire-format dict produced by `MessageItem.to_dict`. -/
inductive WireValue where
  | str : String → WireValue
  | calls : List ToolCallDict → WireValue
deriving DecidableEq, Repr

/-- `MessageItem.to_dict`: each optional key is present iff its field is
truthy in Python (`None` and `""` and `[]` are falsy). -/
def MessageItem.to_dict (m : MessageItem) : List (String × WireValue) :=
  [("role", WireValue.str m.role)]
    ++ (match m.tool_call_id with
        | some s => if s ≠ "" then [("tool_call_id", WireValue.str s)] else []
        | none => [])
    ++ (if m.tool_calls ≠ [] then [("tool_calls", WireValue.calls m.tool_calls)] else [])
    ++ (if m.content ≠ "" then [("content", WireValue.str m.content)] else [])

/-- `TokenUsage` of `src/src/exorous/client/response.py` as constructed in
`src/src/exorous/client/llm_client.py`: independent counters. -/
structure TokenUsage where
  prompt_tokens : Nat := 0
  completion_tokens : Nat := 0
  total_tokens : Nat := 0
  cached_tokens : Nat := 0
deriving DecidableEq, Repr

/-- The `ContextManager` state read by `needs_compression`:
`self._latest_usage` and `self.config.model.context_window`. -/
structure CtxState where
  messages : List MessageItem := []
  latest_usage : TokenUsage := {}
  context_window : Nat
deriving Repr

/-- `ContextManager.needs_compression`:
`self._latest_usage.total_tokens > context_limit * 0.8`, with `0.8` modelled
exactly as `4/5`. -/
def needs_compression (s : CtxState) : Bool :=
  decide (5 * s.latest_usage.total_tokens > 4 * s.context_window)

/-- `ContextManager.set_latest_usage`. -/
def set_latest_usage (s : CtxState) (usage : TokenUsage) : CtxState :=
  { s with latest_usage := usage }

/-- Modelled from the spec (claim C4's wording): compression is needed when
the latest reported prompt-token usage exceeds 80% of the context window. -/
def specNeedsCompressionPrompt (s : CtxState) : Bool :=
  decide (5 * s.latest_usage.prompt_tokens > 4 * s.context_window)

/-- The amended spec-side reading of `needs_compression`: the latest reported
total-token usage exceeds 80% of the context window. -/
def specNeedsCompressionTotal (s : CtxState) : Bool :=
  decide (5 * s.latest_usage.total_tokens > 4 * s.context_window)

/-- The text of `continuation_content` before the interpolated summary. -/
def contPre : String :=
  "# Context Restoration (Previous Session Compacted)\n\n        The previous conversation was compacted due to context length limits. Below is a detailed summary of the work done so far. \n\n        **CRITICAL: Actions listed under \"COMPLETED ACTIONS\" are already done. DO NOT repeat them.**\n\n        ---\n\n        "

/-- The text of `continuation_content` after the interpolated summary. -/
def contPost : String :=
  "\n\n        ---\n\n        Resume work from where we left off. Focus ONLY on the remaining tasks."

/-- The `continuation_content` f-string of `replace_with_summary`. -/
def continuationContent (summary : String) : String :=
  contPre ++ summary ++ contPost

/-- The `ack_content` literal of `replace_with_summary`. -/
def ackContent : String :=
  "I've reviewed the context from the previous session. I understand:\n- The original goal and what was requested\n- Which actions are ALREADY COMPLETED (I will NOT repeat these)\n- The current state of the project\n- What still needs to be done\n\nI'll continue with the REMAINING tasks only, starting from where we left off."

/-- The `continue_content` literal of `replace_with_summary`. -/
def continueContent : String :=
  "Continue with the REMAINING work only. Do NOT repeat any completed actions. Proceed with the next step as described in the context above."

/-- `ContextManager.replace_with_summary`: clears `self._messages` and
appends the three synthetic messages.  `ct` is the external `count_tokens`
estimator; the previous history is discarded. -/
def replace_with_summary (ct : String → Nat) (summary : String)
    (_msgs : List MessageItem) : List MessageItem :=
  [ { role := "user", content := continuationContent summary,
      token_count := some (ct (continuationContent summary)) },
    { role := "assistant", content := ackContent,
      token_count := some (ct ackContent) },
    { role := "user", content := continueContent,
      token_count := some (ct continueContent) } ]

/-- `ContextManager.PRUNE_PROTECT_TOKENS`. -/
def PRUNE_PROTECT_TOKENS : Nat := 40000

/-- `ContextManager.PRUNE_MINIMUM_TOKENS`. -/
def PRUNE_MINIMUM_TOKENS : Nat := 20000

/-- The placeholder written by pruning. -/
def PRUNE_PLACEHOLDER : String := "[Old tool result content cleared]"

/-- The scan guard `msg.role == "tool" and msg.tool_call_id` (Python
truthiness: `None` and `""` fail). -/
def isPrunableTool (m : MessageItem) : Bool :=
  m.role == "tool" &&
    (match m.tool_call_id with
     | some s => s != ""
     | none => false)

/-- `msg.token_count or count_tokens(msg.content, ...)`: Python `or` also
replaces a cached count of `0`. -/
def msgTokens (ct : String → Nat) (m : MessageItem) : Nat :=
  match m.token_count with
  | some n => if n ≠ 0 then n else ct m.content
  | none => ct m.content

/-- The newest-to-oldest scan of `prune_tool_outputs`, run on the reversed
message list.  Returns the combined tokens of the prune candidates
(`pruned_tokens`) and, aligned with the input, a flag per message saying
whether it is a candidate.  The scan `break`s at the first already-pruned
tool message, leaving all remaining flags `false`. -/
def scanPrune (ct : String → Nat) : Nat → List MessageItem → Nat × List Bool
  | _, [] => (0, [])
  | total, m :: rest =>
    if isPrunableTool m then
      (if m.pruned_at.isSome then (0, List.replicate (rest.length + 1) false)
       else
        let tokens := msgTokens ct m
        if PRUNE_PROTECT_TOKENS < total + tokens then
          ((scanPrune ct (total + tokens) rest).1 + tokens,
            true :: (scanPrune ct (total + tokens) rest).2)
        else
          ((scanPrune ct (total + tokens) rest).1,
            false :: (scanPrune ct (total + tokens) rest).2))
    else
      ((scanPrune ct total rest).1, false :: (scanPrune ct total rest).2)

/-- The in-place mutation applied to each prune candidate. -/
def pruneMsg (ct : String → Nat) (now : Nat) (m : MessageItem) : MessageItem :=
  { m with content := PRUNE_PLACEHOLDER,
           token_count := some (ct PRUNE_PLACEHOLDER),
           pruned_at := some now }

/-- Apply the candidate flags positionally. -/
def applyFlags (ct : String → Nat) (now : Nat)
    (ms : List MessageItem) (fs : List Bool) : List MessageItem :=
  List.zipWith (fun m f => if f then pruneMsg ct now m else m) ms fs

/-- `ContextManager.prune_tool_outputs`, returning the pruned count and the
updated message list.  `now` is the opaque `datetime.now()` timestamp. -/
def prune_tool_outputs (ct : String → Nat) (now : Nat)
    (msgs : List MessageItem) : Nat × List MessageItem :=
  if msgs.countP (fun m => m.role == "user") < 2 then (0, msgs)
  else
    let scanned := scanPrune ct 0 msgs.reverse
    if scanned.1 < PRUNE_MINIMUM_TOKENS then (0, msgs)
    else (scanned.2.countP (fun f => f = true),
          (applyFlags ct now msgs.reverse scanned.2).reverse)

/-! ## Tool invocation pipeline (`src/src/exorous/tools/registry.py`)

`ToolRegistry.invoke` is embedded as a pure function from the per-invocation
behaviour of the resolved tool (its validation result, confirmation request
and execution outcome as functions of the invocation) to the returned
`ToolResult` together with the ordered list of lifecycle notifications fired
through the hook system. -/

/-- `ToolResult` of `src/tools/base.py` (fields not read by the embedded
control flow — `metadata`, `diff`, `exit_code`, `truncated` — are omitted). -/
structure ToolResult where
  success : Bool
  output : String := ""
  error : Option String := none
deriving DecidableEq, Repr

/-- `ToolResult.error_result`. -/
def ToolResult.error_result (e : String) : ToolResult :=
  { success := false, output := "", error := some e }

/-- `ToolInvocation` of `src/tools/base.py`. -/
structure ToolInvocation where
  params : Params
  cwd : PyPath

/-- The tool contract consumed by `invoke`: `validate_params`,
`is_mutating`, `get_confirmation`, and `execute`, whose uncaught fault is
`Except.error` (converted by `invoke` to a structured error result). -/
structure Tool where
  validate_params : Params → List String
  is_mutating : Params → Bool
  get_confirmation : ToolInvocation → Option ToolConfirmation
  execute : ToolInvocation → Except String ToolResult

/-- A lifecycle notification fired through the hook system during `invoke`. -/
inductive HookEvent where
  | beforeTool : String → HookEvent
  | afterTool : String → HookEvent
deriving DecidableEq, Repr

/-- The `try: result = await tool.execute(...) except ...` block of
`invoke`. -/
def execPhase (tool : Tool) (inv : ToolInvocation) : ToolResult :=
  match tool.execute inv with
  | .ok r => r
  | .error e => ToolResult.error_result ("Internal error: " ++ e)

/-- `ToolRegistry.invoke`.  `get` is the registry lookup (`self.get(name)`).
The returned event list records every `trigger_before_tool` /
`trigger_after_tool` call in order. -/
def invoke (get : String → Option Tool) (name : String) (params : Params)
    (cwd : PyPath) (approval_manager : Option ApprovalManager) :
    ToolResult × List HookEvent :=
  match get name with
  | none =>
      (ToolResult.error_result ("Unknown tool: " ++ name), [.afterTool name])
  | some tool =>
    let validation_errors := tool.validate_params params
    if validation_errors ≠ [] then
      (ToolResult.error_result
        ("Invalid parameters: " ++ String.intercalate "; " validation_errors),
       [.afterTool name])
    else
      let inv : ToolInvocation := { params := params, cwd := cwd }
      let approvalShortCircuit : Option ToolResult :=
        match approval_manager with
        | some mgr =>
          match tool.get_confirmation inv with
          | some confirmation =>
            let context : ApprovalContext :=
              { tool_name := name, params := params,
                is_mutating := tool.is_mutating params,
                affected_paths := confirmation.affected_paths,
                command := confirmation.command,
                is_dangerous := confirmation.is_dangerous }
            let decision := check_approval mgr context
            if decision = .REJECTED then
              some (ToolResult.error_result "Operation rejected by safety policy")
            else if decision = .NEEDS_CONFIRMATION
                ∧ request_confirmation mgr confirmation = false then
              some (ToolResult.error_result "User rejected the operation")
            else none
          | none => none
        | none => none
      let result : ToolResult :=
        match approvalShortCircuit with
        | some r => r
        | none => execPhase tool inv
      (result, [.beforeTool name, .afterTool name])

/-- Number of `before_tool` notifications in an event list. -/
def countBefore (evs : List HookEvent) : Nat :=
  evs.countP (fun e => match e with | .beforeTool _ => true | _ => false)

/-- Number of `after_tool` notifications in an event list. -/
def countAfter (evs : List HookEvent) : Nat :=
  evs.countP (fun e => match e with | .afterTool _ => true | _ => false)

/-! ## Agentic loop event behaviour (`src/agent/agent.py`)

`Agent._agentic_loop` is embedded as the stream of `AgentEvent`s it yields,
given the transport's event stream for each turn (`transport turn` is the
sequence produced by `client.chat_completion` on that turn, in arrival
order).  Context-store bookkeeping (appends, compaction, pruning, the
loop-breaker user message) yields no events and does not influence the
loop's control flow, which depends only on each turn's collected tool calls
and the turn ceiling. -/

/-- `ToolCall` of `src/client/response.py` as consumed by the loop. -/
structure ToolCall where
  call_id : String
  name : String
  arguments : Params
deriving DecidableEq, Repr

/-- One streamed completion event, as dispatched by the `async for` in
`_agentic_loop` (`TEXT_DELTA`, `TOOL_CALL_COMPLETE`, `ERROR`,
`MESSAGE_COMPLETE`). -/
inductive StreamEvent where
  | textDelta : String → StreamEvent
  | toolCallComplete : ToolCall → StreamEvent
  | error : Option String → StreamEvent
  | messageComplete : TokenUsage → StreamEvent
deriving DecidableEq, Repr

/-- A lifecycle event yielded by the loop. -/
inductive AgentEvent where
  | textDelta : String → AgentEvent
  | textComplete : String → AgentEvent
  | agentError : String → AgentEvent
  | toolCallStart : String → String → AgentEvent
  | toolCallComplete : String → String → AgentEvent
deriving DecidableEq, Repr

/-- `event.error or "Unknown error occurred."` (Python `or`: `None` and `""`
both fall back). -/
def errorMessage (m : Option String) : String :=
  match m with
  | some s => if s = "" then "Unknown error occurred." else s
  | none => "Unknown error occurred."

/-- The events yielded while consuming one turn's stream: a `text_delta` per
text fragment and an `agent_error` per transport error event (the loop does
not break on one). -/
def streamAgentEvents (evs : List StreamEvent) : List AgentEvent :=
  evs.filterMap fun e =>
    match e with
    | .textDelta c => some (.textDelta c)
    | .error m => some (.agentError (errorMessage m))
    | _ => none

/-- The `tool_calls` list accumulated from one turn's stream. -/
def collectToolCalls (evs : List StreamEvent) : List ToolCall :=
  evs.filterMap fun e =>
    match e with
    | .toolCallComplete tc => some tc
    | _ => none

/-- One step of `response_text += content`. -/
def accumTextStep (acc : String) (e : StreamEvent) : String :=
  match e with
  | .textDelta c => acc ++ c
  | _ => acc

/-- The `response_text` accumulated from one turn's stream. -/
def accumText (evs : List StreamEvent) : String :=
  evs.foldl accumTextStep ""

/-- The `tool_call_start` / `tool_call_complete` pairs yielded while the
turn's tool calls are executed sequentially. -/
def toolPhaseEvents (tcs : List ToolCall) : List AgentEvent :=
  tcs.foldr
    (fun tc acc =>
      .toolCallStart tc.call_id tc.name :: .toolCallComplete tc.call_id tc.name :: acc)
    []

/-- One iteration of the `for turn_num in range(max_turns)` loop and its
continuation; `fuel` is the number of remaining iterations and `turn` the
current index.  When the fuel runs out the loop-exit `agent_error` for the
turn ceiling is yielded. -/
def agenticLoopGo (maxTurns : Nat) (transport : Nat → List StreamEvent) :
    Nat → Nat → List AgentEvent
  | 0, _ =>
      [.agentError ("Maximum turns (" ++ toString maxTurns ++ ") reached")]
  | fuel + 1, turn =>
    let evs := transport turn
    let response_text := accumText evs
    let tool_calls := collectToolCalls evs
    streamAgentEvents evs
      ++ (if response_text ≠ "" then [.textComplete response_text] else [])
      ++ (if tool_calls = [] then []
          else toolPhaseEvents tool_calls
            ++ agenticLoopGo maxTurns transport fuel (turn + 1))

/-- `Agent._agentic_loop` as its yielded event sequence. -/
def agentic_loop (maxTurns : Nat) (transport : Nat → List StreamEvent) :
    List AgentEvent :=
  agenticLoopGo maxTurns transport maxTurns 0

/-- The number of model calls (`client.chat_completion` invocations) the
loop performs. -/
def modelCallsGo (transport : Nat → List StreamEvent) : Nat → Nat → Nat
  | 0, _ => 0
  | fuel + 1, turn =>
    1 + (if collectToolCalls (transport turn) = [] then 0
         else modelCallsGo transport fuel (turn + 1))

/-- Total model calls of a run. -/
def modelCalls (maxTurns : Nat) (transport : Nat → List StreamEvent) : Nat :=
  modelCallsGo transport maxTurns 0

def isErrorEvent : StreamEvent → Bool
  | .error _ => true
  | _ => false

def isToolStartEvent : AgentEvent → Bool
  | .toolCallStart _ _ => true
  | _ => false

def isAgentErrorEvent : AgentEvent → Bool
  | .agentError _ => true
  | _ => false

/-- The transport schedule of claim C9's counterexample: the first turn's
stream reports an error and then a completed tool call; the second turn's
stream is empty. -/
def cexTransport : Nat → List StreamEvent :=
  fun n => if n = 0 then
    [.error none, .toolCallComplete { call_id := "1", name := "shell", arguments := [] }]
  else []

/-! ## Claim theorems -/

/-- C1, counterexample.  The claim says a command matching the hard-coded
dangerous-pattern list is rejected under every policy mode including `YOLO`.
In the source, `_assess_command_safety` returns `APPROVED` for `YOLO` before
the dangerous-pattern check, so the dangerous command `"rm -rf /"` is
approved under `YOLO`. -/
theorem C1_counterexample :
    is_dangerous_command "rm -rf /" = true
    ∧ assess_command_safety .YOLO "rm -rf /" = .APPROVED := by
  constructor
  · decide
  · rfl

/-- C1, amended: a command matching the dangerous-pattern list is rejected
under every policy mode except `YOLO`; `YOLO` approves every command,
dangerous ones included. -/
theorem C1_dangerous_rejected_except_yolo :
    ∀ (policy : ApprovalPolicy) (command : String),
      policy ≠ .YOLO → is_dangerous_command command = true →
      assess_command_safety policy command = .REJECTED := by
  intro policy command hpol hd
  simp [assess_command_safety, hpol, hd]

/-- Witness for C1's amended theorem at `NEVER` / `"rm -rf /"`. -/
theorem C1_witness :
    assess_command_safety .NEVER "rm -rf /" = .REJECTED :=
  C1_dangerous_rejected_except_yolo .NEVER "rm -rf /" (by decide) (by decide)

/-- C4, counterexample.  The claim says `needs_compression()` is true exactly
when the latest reported prompt-token usage exceeds 80% of the context
window; the source compares `self._latest_usage.total_tokens`.  A usage
report of 0 prompt tokens and 81 total tokens against a 100-token window
makes the source return true while the prompt-based reading is false. -/
theorem C4_counterexample :
    needs_compression
      { messages := [],
        latest_usage :=
          { prompt_tokens := 0, completion_tokens := 81,
            total_tokens := 81, cached_tokens := 0 },
        context_window := 100 } = true
    ∧ specNeedsCompressionPrompt
      { messages := [],
        latest_usage :=
          { prompt_tokens := 0, completion_tokens := 81,
            total_tokens := 81, cached_tokens := 0 },
        context_window := 100 } = false := by
  constructor
  · rfl
  · rfl

/-- C4, amended: `needs_compression()` returns true exactly when the latest
reported TOTAL-token usage exceeds 80% of the configured context window
(`0.8` modelled exactly as `4/5`). -/
theorem C4_total_tokens_threshold :
    ∀ (s : CtxState) (u : TokenUsage),
      (needs_compression (set_latest_usage s u) = true
        ↔ 5 * u.total_tokens > 4 * s.context_window)
      ∧ needs_compression (set_latest_usage s u)
          = specNeedsCompressionTotal (set_latest_usage s u) := by
  intro s u
  constructor
  · simp [needs_compression, set_latest_usage]
  · rfl

/-- C6: on compaction with a non-empty summary, `replace_with_summary`
leaves exactly three messages: a user context-restoration message embedding
the summary, an assistant acknowledgment, and a user continue directive. -/
theorem C6_compaction_three_messages :
    ∀ (ct : String → Nat) (summary : String) (msgs : List MessageItem),
      summary ≠ "" →
      (replace_with_summary ct summary msgs).length = 3
      ∧ (replace_with_summary ct summary msgs).map (fun m => m.role)
          = ["user", "assistant", "user"]
      ∧ ∃ pre post,
          (replace_with_summary ct summary msgs).headI.content
            = pre ++ summary ++ post := by
  intro ct summary msgs _
  exact ⟨rfl, rfl, contPre, contPost, rfl⟩

/-- Witness for C6 at a concrete summary and a discarded history. -/
theorem C6_witness :
    (replace_with_summary String.length "S" []).length = 3
    ∧ (replace_with_summary String.length "S" []).map (fun m => m.role)
        = ["user", "assistant", "user"]
    ∧ ∃ pre post,
        (replace_with_summary String.length "S" []).headI.content
          = pre ++ "S" ++ post :=
  C6_compaction_three_messages String.length "S" [] (by decide)

/-- C10: a stored message whose content is the empty string serialises with
no `"content"` key at all (so round-tripping does not preserve an explicit
empty-content field). -/
theorem C10_empty_content_not_serialised :
    ∀ (m : MessageItem), m.content = "" →
      "content" ∉ (MessageItem.to_dict m).map Prod.fst := by
  intro m h
  rcases m with ⟨role, content, tcid, tcalls, tok, pr⟩
  simp only at h
  subst h
  simp only [MessageItem.to_dict]
  rcases tcid with _ | s <;> simp_all [List.mem_append]

/-- Witness for C10: the empty assistant message of a tool-call-only turn is
sent without a content field. -/
theorem C10_witness :
    "content" ∉ (MessageItem.to_dict
      { role := "assistant", content := "",
        tool_calls := [{ id := "1", function_name := "shell",
                         function_arguments := "" }] }).map Prod.fst :=
  C10_empty_content_not_serialised _ rfl

/-- C3, counterexample.  For the 4-entry history `[A, B, A, B]` the claim's
premises for cycle length 2 hold (at least `2 × 2` entries, most recent 2
equal the preceding 2), yet `check_for_loop` reports nothing: its cycle scan
is guarded by `len(history) >= max_cycle_length * 2`, i.e. 6 entries. -/
theorem C3_counterexample :
    2 * 2 ≤ (["A", "B", "A", "B"] : List String).length
    ∧ (lastN (2 * 2) ["A", "B", "A", "B"]).take 2
        = (lastN (2 * 2) ["A", "B", "A", "B"]).drop 2
    ∧ check_for_loop ["A", "B", "A", "B"] = none := by
  refine ⟨by decide, by decide, by decide⟩

/-- C3, amended: for cycle lengths `L ∈ 2..3`, `check_for_loop` reports a
cycle of length `L` when the history holds at least `2 × max_cycle_length`
(= 6) entries — not `2 × L` as claimed — provided the exact-repeat check
does not fire first and no shorter cycle length matches (shortest length
wins, checked in ascending order). -/
theorem C3_cycle_detection :
    ∀ (history : List String) (L : Nat),
      2 ≤ L → L ≤ 3 →
      max_cycle_length * 2 ≤ history.length →
      (lastN max_exact_repeats history).dedup.length ≠ 1 →
      (lastN (L * 2) history).take L = (lastN (L * 2) history).drop L →
      (∀ L', 2 ≤ L' → L' < L →
        (lastN (L' * 2) history).take L' ≠ (lastN (L' * 2) history).drop L') →
      check_for_loop history
        = some ("Detected repeating cycle of length " ++ toString L) := by
  intro h L hL2 hL3 hlen hded hcyc hmin
  have hlen6 : 6 ≤ h.length := by
    simpa [max_cycle_length] using hlen
  unfold check_for_loop
  rw [if_neg (by omega)]
  rw [if_neg (by
    simp only [max_exact_repeats]
    intro hand
    exact hded (by simpa [max_exact_repeats] using hand.2))]
  rw [if_pos hlen]
  have hbound : min (max_cycle_length + 1) (h.length / 2 + 1) - 2 = 2 := by
    have h4 : 4 ≤ h.length / 2 + 1 := by omega
    simp only [max_cycle_length]
    omega
  rw [hbound]
  have hrange : List.range' 2 2 = [2, 3] := rfl
  rw [hrange]
  interval_cases L
  · rw [List.find?_cons_of_pos _ (by simpa using hcyc)]
  · rw [List.find?_cons_of_neg _ (by
        simpa using hmin 2 (by omega) (by omega)),
      List.find?_cons_of_pos _ (by simpa using hcyc)]

/-- Witness for C3's amended theorem: `[A, B, A, B, A, B]` (6 entries)
reports a cycle of length 2. -/
theorem C3_witness :
    check_for_loop ["A", "B", "A", "B", "A", "B"]
      = some "Detected repeating cycle of length 2" :=
  C3_cycle_detection ["A", "B", "A", "B", "A", "B"] 2 (by omega) (by omega)
    (by decide) (by decide) (by decide)
    (fun L' h1 h2 => absurd (lt_of_le_of_lt h1 h2) (by omega))

/-- C5, counterexample.  The claim says an out-of-directory affected path
forces a non-approved verdict whenever the command verdict is not already
`REJECTED`.  In the source, `check_approval` returns a command verdict of
`APPROVED` immediately, before the path check: a mutating action with the
safe command `"ls"` and an affected path outside the working directory is
approved under the default `ON_REQUEST` policy. -/
theorem C5_counterexample :
    check_approval
      { approval_policy := .ON_REQUEST, cwd := ["home"],
        confirmation_callback := none }
      { tool_name := "shell", params := [], is_mutating := true,
        affected_paths := [["etc", "passwd"]], command := some "ls",
        is_dangerous := false } = .APPROVED
    ∧ isSubPath ["home"] ["etc", "passwd"] = false := by
  refine ⟨by decide, by decide⟩

/-- C5, amended: the path-containment check runs only when no (non-empty)
shell command is present or the command verdict is `NEEDS_CONFIRMATION`; in
that case, for every mutating context with at least one affected path
outside the working directory, `check_approval` returns
`NEEDS_CONFIRMATION` regardless of policy mode (returning on the first
out-of-directory path). -/
theorem C5_outside_path_needs_confirmation :
    ∀ (m : ApprovalManager) (ctx : ApprovalContext),
      ctx.is_mutating = true →
      (∀ c, commandText ctx.command = some c →
        assess_command_safety m.approval_policy c = .NEEDS_CONFIRMATION) →
      (∃ p ∈ ctx.affected_paths, isSubPath m.cwd p = false) →
      check_approval m ctx = .NEEDS_CONFIRMATION := by
  intro m ctx hmut hcmd ⟨p, hp, hsub⟩
  unfold check_approval
  rw [if_neg (by simp [hmut])]
  have hfind : (ctx.affected_paths.find? (fun q => !(isSubPath m.cwd q))).isSome := by
    rw [List.find?_isSome]
    exact ⟨p, hp, by simp [hsub]⟩
  obtain ⟨q, hq⟩ := Option.isSome_iff_exists.mp hfind
  rcases hc : commandText ctx.command with _ | c
  · simp only [hc, hq]
  · have hne := hcmd c hc
    simp only [hc, hne, hq]
    simp

/-- Witness for C5's amended theorem: a mutating action with no command and
an affected path outside the working directory needs confirmation under
`NEVER`. -/
theorem C5_witness :
    check_approval
      { approval_policy := .NEVER, cwd := ["home"],
        confirmation_callback := none }
      { tool_name := "write_file", params := [], is_mutating := true,
        affected_paths := [["etc", "passwd"]], command := none,
        is_dangerous := false } = .NEEDS_CONFIRMATION :=
  C5_outside_path_needs_confirmation _ _ rfl
    (fun c hc => by simp [commandText] at hc)
    ⟨["etc", "passwd"], by decide, by decide⟩

/-- C2, counterexample.  The claim says exactly one `before_tool` and one
`after_tool` notification fire per invocation attempt, including the
unknown-tool path.  In the source, `trigger_before_tool` is only called
after name resolution and parameter validation succeed: an unknown tool name
fires zero `before_tool` notifications (and one `after_tool`). -/
theorem C2_counterexample :
    countBefore (invoke (fun _ => none) "missing" [] [] none).2 = 0
    ∧ countAfter (invoke (fun _ => none) "missing" [] [] none).2 = 1 := by
  refine ⟨rfl, rfl⟩

/-- C2, amended: every invocation attempt fires exactly one `after_tool`
notification, on all paths (unknown tool, validation failure, policy
rejection, declined confirmation, execution fault, success); `before_tool`
fires exactly once when the tool resolves and its parameters validate, and
zero times on the unknown-tool and validation-failure paths. -/
theorem C2_notification_counts :
    ∀ (get : String → Option Tool) (name : String) (params : Params)
      (cwd : PyPath) (am : Option ApprovalManager),
      countAfter (invoke get name params cwd am).2 = 1
      ∧ countBefore (invoke get name params cwd am).2
          = (match get name with
             | none => 0
             | some tool => if tool.validate_params params = [] then 1 else 0) := by
  intro get name params cwd am
  rcases hget : get name with _ | tool
  · simp [invoke, hget, countBefore, countAfter, List.countP_cons]
  · by_cases hval : tool.validate_params params = []
    · simp [invoke, hget, hval, countBefore, countAfter, List.countP_cons]
    · simp [invoke, hget, hval, countBefore, countAfter, List.countP_cons]

/-- C9, counterexample.  The claim says a transport-error event ends the
loop: no further model calls or tool executions happen in that run.  In the
source, the `ERROR` branch only yields an `agent_error` event and the loop
continues: with a first-turn stream of an error followed by a completed tool
call, the tool is still executed and a second model call happens. -/
theorem C9_counterexample :
    agentic_loop 5 cexTransport
      = [.agentError "Unknown error occurred.",
         .toolCallStart "1" "shell", .toolCallComplete "1" "shell"]
    ∧ modelCalls 5 cexTransport = 2 := by
  refine ⟨by decide, by decide⟩

/-- Erasing transport error events does not change the accumulated response
text. -/
theorem accumText_filter_err (evs : List StreamEvent) :
    accumText (evs.filter (fun e => !isErrorEvent e)) = accumText evs := by
  suffices h : ∀ acc,
      (evs.filter (fun e => !isErrorEvent e)).foldl accumTextStep acc
        = evs.foldl accumTextStep acc by
    exact h ""
  induction evs with
  | nil => intro acc; rfl
  | cons e rest ih =>
    intro acc
    cases e <;> simp [List.filter_cons, isErrorEvent, accumTextStep] <;>
      exact ih _

/-- Erasing transport error events does not change the collected tool
calls. -/
theorem collectToolCalls_filter_err (evs : List StreamEvent) :
    collectToolCalls (evs.filter (fun e => !isErrorEvent e))
      = collectToolCalls evs := by
  induction evs with
  | nil => rfl
  | cons e rest ih =>
    cases e <;>
      simp [collectToolCalls, List.filter_cons, List.filterMap_cons,
        isErrorEvent] <;>
      simpa [collectToolCalls] using ih

/-- The stream-consumption phase never yields a `tool_call_start` event. -/
theorem streamAgentEvents_no_toolStart (evs : List StreamEvent) :
    (streamAgentEvents evs).filter isToolStartEvent = [] := by
  induction evs with
  | nil => rfl
  | cons e rest ih =>
    cases e <;>
      simp [streamAgentEvents, List.filterMap_cons, List.filter_cons,
        isToolStartEvent] <;>
      simpa [streamAgentEvents] using ih

/-- The tool-execution phase yields one `tool_call_start` per tool call. -/
theorem toolPhaseEvents_filter_starts (tcs : List ToolCall) :
    (toolPhaseEvents tcs).filter isToolStartEvent
      = tcs.map (fun tc => AgentEvent.toolCallStart tc.call_id tc.name) := by
  induction tcs with
  | nil => rfl
  | cons tc rest ih =>
    simp [toolPhaseEvents, List.filter_cons, isToolStartEvent]
    simpa [toolPhaseEvents] using ih

/-- Each stream error event yields exactly one `agent_error` event. -/
theorem streamAgentEvents_error_count (evs : List StreamEvent) :
    (streamAgentEvents evs).countP isAgentErrorEvent
      = evs.countP isErrorEvent := by
  induction evs with
  | nil => rfl
  | cons e rest ih =>
    cases e <;>
      simp [streamAgentEvents, List.filterMap_cons, List.countP_cons,
        isAgentErrorEvent, isErrorEvent] <;>
      simpa [streamAgentEvents] using ih

/-- A `text_complete` block never contains a `tool_call_start`. -/
theorem textCompleteBlock_no_toolStart (s : String) :
    (if s ≠ "" then [AgentEvent.textComplete s] else []).filter
      isToolStartEvent = [] := by
  split <;> simp [isToolStartEvent]

/-- Model-call count and tool executions are invariant under erasing the
transport's error events, turn by turn. -/
theorem loop_filter_err (maxTurns : Nat) (transport : Nat → List StreamEvent) :
    ∀ (fuel turn : Nat),
      modelCallsGo (fun n => (transport n).filter (fun e => !isErrorEvent e))
          fuel turn
        = modelCallsGo transport fuel turn
      ∧ (agenticLoopGo maxTurns
            (fun n => (transport n).filter (fun e => !isErrorEvent e))
            fuel turn).filter isToolStartEvent
          = (agenticLoopGo maxTurns transport fuel turn).filter
              isToolStartEvent := by
  intro fuel
  induction fuel with
  | zero =>
    intro turn
    exact ⟨rfl, by simp [agenticLoopGo, isToolStartEvent]⟩
  | succ f ih =>
    intro turn
    constructor
    · simp only [modelCallsGo, collectToolCalls_filter_err]
      by_cases h : collectToolCalls (transport turn) = []
      · simp [h]
      · simp [h, (ih (turn + 1)).1]
    · simp only [agenticLoopGo, collectToolCalls_filter_err,
        accumText_filter_err, List.filter_append,
        streamAgentEvents_no_toolStart, textCompleteBlock_no_toolStart]
      by_cases h : collectToolCalls (transport turn) = []
      · simp [h]
      · simp [h, List.filter_append, toolPhaseEvents_filter_starts,
          (ih (turn + 1)).2]

/-- C9, amended: a transport error event yields exactly one (non-terminal)
`agent_error` event, but it does not end the loop for that invocation: the
number of model calls and the sequence of tool executions are exactly what
they would be if the error events had never been streamed — the loop ends
only through the no-tool-calls path or the turn ceiling. -/
theorem C9_error_event_not_terminal :
    ∀ (maxTurns : Nat) (transport : Nat → List StreamEvent),
      modelCalls maxTurns (fun n => (transport n).filter (fun e => !isErrorEvent e))
        = modelCalls maxTurns transport
      ∧ (agentic_loop maxTurns
            (fun n => (transport n).filter (fun e => !isErrorEvent e))).filter
            isToolStartEvent
          = (agentic_loop maxTurns transport).filter isToolStartEvent
      ∧ ∀ evs : List StreamEvent,
          (streamAgentEvents evs).countP isAgentErrorEvent
            = evs.countP isErrorEvent := by
  intro maxTurns transport
  exact ⟨(loop_filter_err maxTurns transport maxTurns 0).1,
         (loop_filter_err maxTurns transport maxTurns 0).2,
         streamAgentEvents_error_count⟩

/-- The prune scan produces one candidate flag per scanned message. -/
theorem scanPrune_flags_length (ct : String → Nat) :
    ∀ (l : List MessageItem) (t : Nat), (scanPrune ct t l).2.length = l.length := by
  intro l
  induction l with
  | nil => intro t; rfl
  | cons m rest ih =>
    intro t
    by_cases h1 : isPrunableTool m = true
    · by_cases h2 : m.pruned_at.isSome = true
      · simp [scanPrune, h1, h2]
      · by_cases h3 : PRUNE_PROTECT_TOKENS < t + msgTokens ct m
        · simp [scanPrune, h1, h2, h3, ih]
        · simp [scanPrune, h1, h2, h3, ih]
    · simp [scanPrune, h1, ih]

/-- Applying an all-false flag list changes nothing. -/
theorem applyFlags_replicate_false (ct : String → Nat) (now : Nat) :
    ∀ (l : List MessageItem),
      applyFlags ct now l (List.replicate l.length false) = l := by
  intro l
  induction l with
  | nil => rfl
  | cons m rest ih =>
    simp [applyFlags, List.replicate_succ]
    exact ih

/-- Pruning a message keeps its prunability (role and tool_call_id are
untouched). -/
theorem isPrunableTool_pruneMsg (ct : String → Nat) (now : Nat)
    (m : MessageItem) : isPrunableTool (pruneMsg ct now m) = isPrunableTool m :=
  rfl

/-- Applying candidate flags preserves the user-message count. -/
theorem applyFlags_countP_user (ct : String → Nat) (now : Nat) :
    ∀ (l : List MessageItem) (fs : List Bool), fs.length = l.length →
      (applyFlags ct now l fs).countP (fun m => m.role == "user")
        = l.countP (fun m => m.role == "user") := by
  intro l
  induction l with
  | nil => intro fs _; simp [applyFlags]
  | cons m rest ih =>
    intro fs h
    cases fs with
    | nil => simp at h
    | cons f fs' =>
      simp only [List.length_cons] at h
      cases f
      · simp [applyFlags, List.countP_cons]
        exact ih fs' (by omega)
      · simp [applyFlags, List.countP_cons, pruneMsg]
        exact ih fs' (by omega)

/-- Counting over a reversed list. -/
theorem countP_reverse_eq (p : MessageItem → Bool) (l : List MessageItem) :
    l.reverse.countP p = l.countP p := by
  induction l with
  | nil => rfl
  | cons m rest ih => simp [List.countP_cons, List.countP_append, ih]

/-- Key rescan lemma: after applying the scan's own candidate flags, either
the scan had no candidates at all (zero candidate tokens, nothing changed),
or a rescan from the same running total finds zero candidate tokens —
because the protected prefix accumulates exactly as before and the rescan
stops at the first newly pruned message. -/
theorem scanPrune_applied (ct : String → Nat) (now : Nat) :
    ∀ (l : List MessageItem) (t : Nat),
      ((scanPrune ct t l).1 = 0
        ∧ applyFlags ct now l (scanPrune ct t l).2 = l)
      ∨ (scanPrune ct t (applyFlags ct now l (scanPrune ct t l).2)).1 = 0 := by
  intro l
  induction l with
  | nil => intro t; exact Or.inl ⟨rfl, rfl⟩
  | cons m rest ih =>
    intro t
    by_cases h1 : isPrunableTool m = true
    · by_cases h2 : m.pruned_at.isSome = true
      · left
        constructor
        · simp [scanPrune, h1, h2]
        · have hfl : (scanPrune ct t (m :: rest)).2
              = List.replicate (m :: rest).length false := by
            simp [scanPrune, h1, h2]
          rw [hfl, applyFlags_replicate_false]
      · by_cases h3 : PRUNE_PROTECT_TOKENS < t + msgTokens ct m
        · right
          have happ : applyFlags ct now (m :: rest) (scanPrune ct t (m :: rest)).2
              = pruneMsg ct now m
                :: applyFlags ct now rest
                    (scanPrune ct (t + msgTokens ct m) rest).2 := by
            simp [scanPrune, h1, h2, h3, applyFlags]
          rw [happ]
          have hsome : (pruneMsg ct now m).pruned_at.isSome = true := rfl
          simp [scanPrune, isPrunableTool_pruneMsg, h1, hsome]
        · have hsc : scanPrune ct t (m :: rest)
              = ((scanPrune ct (t + msgTokens ct m) rest).1,
                 false :: (scanPrune ct (t + msgTokens ct m) rest).2) := by
            simp [scanPrune, h1, h2, h3]
          have happ : applyFlags ct now (m :: rest) (scanPrune ct t (m :: rest)).2
              = m :: applyFlags ct now rest
                  (scanPrune ct (t + msgTokens ct m) rest).2 := by
            rw [hsc]
            simp [applyFlags]
          rcases ih (t + msgTokens ct m) with ⟨h0, heq⟩ | hz
          · left
            constructor
            · rw [hsc]; exact h0
            · rw [happ, heq]
          · right
            rw [happ]
            simpa [scanPrune, h1, h2, h3] using hz
    · have hsc : scanPrune ct t (m :: rest)
          = ((scanPrune ct t rest).1, false :: (scanPrune ct t rest).2) := by
        simp [scanPrune, h1]
      have happ : applyFlags ct now (m :: rest) (scanPrune ct t (m :: rest)).2
          = m :: applyFlags ct now rest (scanPrune ct t rest).2 := by
        rw [hsc]
        simp [applyFlags]
      rcases ih t with ⟨h0, heq⟩ | hz
      · left
        constructor
        · rw [hsc]; exact h0
        · rw [happ, heq]
      · right
        rw [happ]
        simpa [scanPrune, h1] using hz

/-- C7: pruning is idempotent — a second `prune_tool_outputs()` with no
messages added in between prunes nothing (returns count 0) and changes no
message, whatever timestamp the second call uses. -/
theorem C7_prune_idempotent :
    ∀ (ct : String → Nat) (now1 now2 : Nat) (msgs : List MessageItem),
      prune_tool_outputs ct now2 (prune_tool_outputs ct now1 msgs).2
        = (0, (prune_tool_outputs ct now1 msgs).2) := by
  intro ct now1 now2 msgs
  by_cases hu : msgs.countP (fun m => m.role == "user") < 2
  · have h1 : prune_tool_outputs ct now1 msgs = (0, msgs) := by
      simp [prune_tool_outputs, hu]
    rw [h1]
    simp [prune_tool_outputs, hu]
  · by_cases hmin : (scanPrune ct 0 msgs.reverse).1 < PRUNE_MINIMUM_TOKENS
    · have h1 : prune_tool_outputs ct now1 msgs = (0, msgs) := by
        simp [prune_tool_outputs, hu, hmin]
      rw [h1]
      simp [prune_tool_outputs, hu, hmin]
    · have h1 : prune_tool_outputs ct now1 msgs
          = ((scanPrune ct 0 msgs.reverse).2.countP (fun f => f = true),
             (applyFlags ct now1 msgs.reverse
               (scanPrune ct 0 msgs.reverse).2).reverse) := by
        simp [prune_tool_outputs, hu, hmin]
      rw [h1]
      have huser :
          ((applyFlags ct now1 msgs.reverse
            (scanPrune ct 0 msgs.reverse).2).reverse).countP
              (fun m => m.role == "user")
            = msgs.countP (fun m => m.role == "user") := by
        rw [countP_reverse_eq]
        rw [applyFlags_countP_user ct now1 msgs.reverse _
          (by rw [scanPrune_flags_length])]
        exact countP_reverse_eq _ msgs
      have hscan2 :
          (scanPrune ct 0
            ((applyFlags ct now1 msgs.reverse
              (scanPrune ct 0 msgs.reverse).2).reverse).reverse).1 = 0 := by
        rw [List.reverse_reverse]
        rcases scanPrune_applied ct now1 msgs.reverse 0 with ⟨h0, _⟩ | hz
        · exact absurd (by simp [h0, PRUNE_MINIMUM_TOKENS]) hmin
        · exact hz
      have hguard : ¬ (((applyFlags ct now1 msgs.reverse
          (scanPrune ct 0 msgs.reverse).2).reverse).countP
            (fun m => m.role == "user") < 2) := by
        rw [huser]; exact hu
      have hmin2 : (scanPrune ct 0 ((applyFlags ct now1 msgs.reverse
          (scanPrune ct 0 msgs.reverse).2).reverse).reverse).1
            < PRUNE_MINIMUM_TOKENS := by
        rw [hscan2]; norm_num [PRUNE_MINIMUM_TOKENS]
      simp only [prune_tool_outputs]
      rw [if_neg hguard, if_pos hmin2]

/-- The per-message frame relation of pruning: role, tool_call_id and
tool_calls are untouched, and a message that changed at all was a tool
message. -/
def pruneFrame (a b : MessageItem) : Prop :=
  b.role = a.role ∧ b.tool_call_id = a.tool_call_id
  ∧ b.tool_calls = a.tool_calls ∧ (b = a ∨ a.role = "tool")

theorem pruneFrame_refl (a : MessageItem) : pruneFrame a a :=
  ⟨rfl, rfl, rfl, Or.inl rfl⟩

/-- Candidate flags only mark tool messages, so applying them respects the
frame relation. -/
theorem forall₂_applyFlags (ct : String → Nat) (now : Nat) :
    ∀ (l : List MessageItem) (t : Nat),
      List.Forall₂ pruneFrame l (applyFlags ct now l (scanPrune ct t l).2) := by
  intro l
  induction l with
  | nil => intro t; exact List.Forall₂.nil
  | cons m rest ih =>
    intro t
    by_cases h1 : isPrunableTool m = true
    · by_cases h2 : m.pruned_at.isSome = true
      · have hfl : (scanPrune ct t (m :: rest)).2
            = List.replicate (m :: rest).length false := by
          simp [scanPrune, h1, h2]
        rw [hfl, applyFlags_replicate_false]
        exact List.forall₂_same.mpr (fun a _ => pruneFrame_refl a)
      · have hrole : m.role = "tool" := by
          have h := h1
          simp [isPrunableTool] at h
          exact h.1
        by_cases h3 : PRUNE_PROTECT_TOKENS < t + msgTokens ct m
        · have happ : applyFlags ct now (m :: rest) (scanPrune ct t (m :: rest)).2
              = pruneMsg ct now m
                :: applyFlags ct now rest
                    (scanPrune ct (t + msgTokens ct m) rest).2 := by
            simp [scanPrune, h1, h2, h3, applyFlags]
          rw [happ]
          exact List.Forall₂.cons
            ⟨rfl, rfl, rfl, Or.inr hrole⟩ (ih (t + msgTokens ct m))
        · have happ : applyFlags ct now (m :: rest) (scanPrune ct t (m :: rest)).2
              = m :: applyFlags ct now rest
                  (scanPrune ct (t + msgTokens ct m) rest).2 := by
            simp [scanPrune, h1, h2, h3, applyFlags]
          rw [happ]
          exact List.Forall₂.cons (pruneFrame_refl m) (ih (t + msgTokens ct m))
    · have happ : applyFlags ct now (m :: rest) (scanPrune ct t (m :: rest)).2
          = m :: applyFlags ct now rest (scanPrune ct t rest).2 := by
        simp [scanPrune, h1, applyFlags]
      rw [happ]
      exact List.Forall₂.cons (pruneFrame_refl m) (ih t)

/-- C8: `prune_tool_outputs` never removes a message and never changes
message order, roles, tool_call_ids or tool_calls — any message it changes
is a tool message (it only replaces content, token count and the prune
timestamp) — and with fewer than two user messages in history it makes no
change at all. -/
theorem C8_prune_frame :
    ∀ (ct : String → Nat) (now : Nat) (msgs : List MessageItem),
      List.Forall₂ pruneFrame msgs (prune_tool_outputs ct now msgs).2
      ∧ (prune_tool_outputs ct now msgs).2.length = msgs.length
      ∧ (msgs.countP (fun m => m.role == "user") < 2 →
          prune_tool_outputs ct now msgs = (0, msgs)) := by
  intro ct now msgs
  have hforall : List.Forall₂ pruneFrame msgs (prune_tool_outputs ct now msgs).2 := by
    by_cases hu : msgs.countP (fun m => m.role == "user") < 2
    · simp only [prune_tool_outputs, hu, if_pos]
      exact List.forall₂_same.mpr (fun a _ => pruneFrame_refl a)
    · by_cases hmin : (scanPrune ct 0 msgs.reverse).1 < PRUNE_MINIMUM_TOKENS
      · simp only [prune_tool_outputs, hu, hmin, if_neg, if_pos,
          not_false_iff]
        exact List.forall₂_same.mpr (fun a _ => pruneFrame_refl a)
      · have h1 : (prune_tool_outputs ct now msgs).2
            = (applyFlags ct now msgs.reverse
                (scanPrune ct 0 msgs.reverse).2).reverse := by
          simp [prune_tool_outputs, hu, hmin]
        rw [h1]
        have h2 := forall₂_applyFlags ct now msgs.reverse 0
        have h3 := List.forall₂_reverse_iff.mpr h2
        simpa using h3
  refine ⟨hforall, (hforall.length_eq).symm, ?_⟩
  intro hu
  simp [prune_tool_outputs, hu]

/-- Witness for C8 at a one-user-message history (the short-history branch
makes no change). -/
theorem C8_witness :
    prune_tool_outputs (fun s => s.length) 0
      [{ role := "user", content := "hi" }]
      = (0, [{ role := "user", content := "hi" }]) :=
  (C8_prune_frame (fun s => s.length) 0
    [{ role := "user", content := "hi" }]).2.2 (by decide)
